import Mathlib

/-!
Verification of the analysis synthesis pipeline of the code-craft repository
(`src/services/DocumentProcessor.ts`, `src/services/AnalysisEngine.ts`).

The TypeScript sources are shallowly embedded: JS numbers are modelled as
exact rationals (`ℚ`), JS regular-expression scans are modelled by an explicit
backtracking matcher over `List Char`, JS exceptions are modelled with
`Except`, and partially-present untrusted JSON objects are modelled with
`Option` fields.
-/

namespace CodeCraft

/-! ## Character classes (JS regex `\w`, `\s`, `.`, quotes) -/

/-- JS regex `\w`: `[A-Za-z0-9_]`. -/
def isWordChar (c : Char) : Bool :=
  (('a' ≤ c && c ≤ 'z') || ('A' ≤ c && c ≤ 'Z') || ('0' ≤ c && c ≤ '9') || c = '_')

/-- JS regex `\s` (ASCII part; the Unicode spaces it also covers do not occur
in the inputs of interest). -/
def isSpaceChar (c : Char) : Bool :=
  (c = ' ' || c = '\t' || c = '\n' || c = '\r' || c = '\x0b' || c = '\x0c')

/-- JS regex `.` without the `s` flag: any char except a line terminator. -/
def isDotChar (c : Char) : Bool :=
  !(c = '\n' || c = '\r' || c = '\u2028' || c = '\u2029')

/-- The character class `["']` of the import regex. -/
def isQuoteChar (c : Char) : Bool := (c = '"' || c = '\'')

/-! ## Substring search (JS `String.prototype.includes`) -/

/-- Does the haystack start with the needle? -/
def startsWithChars : List Char → List Char → Bool
  | [], _ => true
  | _ :: _, [] => false
  | n :: ns, c :: cs => n = c && startsWithChars ns cs

/-- Does the needle occur anywhere in the haystack? -/
def containsSubChars : List Char → List Char → Bool
  | [], needle => needle.isEmpty
  | c :: cs, needle => startsWithChars needle (c :: cs) || containsSubChars cs needle

/-- JS `hay.includes(needle)`. -/
def containsSub (hay needle : String) : Bool := containsSubChars hay.data needle.data

/-- ASCII lower-casing of one character (JS `toLowerCase` restricted to the
ASCII range; the inputs of interest contain no other cased letters). -/
def asciiToLower (c : Char) : Char :=
  if 'A' ≤ c && c ≤ 'Z' then Char.ofNat (c.toNat + 32) else c

/-- JS `s.toLowerCase()`. -/
def toLowerString (s : String) : String := String.mk (s.data.map asciiToLower)

/-! ## JS truthiness helpers -/

/-- JS `x || y` where `x` is a possibly-absent string: `undefined`/`null` and
the empty string are falsy. -/
def jsOrString (x : Option String) (y : String) : String :=
  match x with
  | none => y
  | some s => if s = "" then y else s

/-- JS `x || y` where both sides are possibly-absent strings. -/
def jsOrOptString (x y : Option String) : Option String :=
  match x with
  | none => y
  | some s => if s = "" then y else some s

/-! ## Duplicate elimination (JS `[...new Set(list)]`)

A JS `Set` keeps the first occurrence of each element in insertion order.
The recursion is fuelled by the list length so that the definition reduces
by `rfl`/`decide` on concrete inputs. -/

def dedupFirstAux {α : Type} [DecidableEq α] : Nat → List α → List α
  | 0, _ => []
  | _ + 1, [] => []
  | fuel + 1, x :: xs => x :: dedupFirstAux fuel (xs.filter (fun y => !(y == x)))

/-- JS `[...new Set(l)]`. -/
def dedupFirst {α : Type} [DecidableEq α] (l : List α) : List α :=
  dedupFirstAux l.length l

/-! ## A small backtracking regex engine

Just enough of JS regex semantics for the patterns used by the source:
literals, single-character classes, greedy star/plus over a class, lazy star
over a class, ordered alternation, sequencing and capture groups.  Matching is
anchored at a position; the driver functions below re-try at successive
positions exactly as `RegExp.prototype.exec` does. -/

inductive RE : Type where
  | eps : RE
  | lit : List Char → RE
  | one : (Char → Bool) → RE
  | starG : (Char → Bool) → RE
  | plusG : (Char → Bool) → RE
  | starL : (Char → Bool) → RE
  | seq : RE → RE → RE
  | alt : RE → RE → RE
  | grp : Nat → RE → RE

/-- Sequence a list of regexes. -/
def seqAll (rs : List RE) : RE := rs.foldr RE.seq RE.eps

/-- Strip a literal prefix, returning the rest of the input. -/
def stripPrefixChars : List Char → List Char → Option (List Char)
  | [], l => some l
  | _ :: _, [] => none
  | p :: ps, c :: cs => if p = c then stripPrefixChars ps cs else none

/-- Length of the maximal run of class characters at the front. -/
def maxRun (p : Char → Bool) (l : List Char) : Nat := (l.takeWhile p).length

/-- Candidate consumption counts for a greedy star: `m, m-1, …, 0`. -/
def descCounts (m : Nat) : List Nat := (List.range (m + 1)).reverse

/-- Candidate consumption counts for a greedy plus: `m, m-1, …, 1`. -/
def descCountsPos (m : Nat) : List Nat := ((List.range m).map (fun i => i + 1)).reverse

/-- Candidate consumption counts for a lazy star: `0, 1, …, m`. -/
def ascCounts (m : Nat) : List Nat := List.range (m + 1)

/-- Try the continuation after dropping each candidate count, in order. -/
def tryDrops (k : List Char → List (Nat × String) → Option (List Char × List (Nat × String)))
    (l : List Char) (g : List (Nat × String)) :
    List Nat → Option (List Char × List (Nat × String))
  | [] => none
  | n :: ns =>
    match k (l.drop n) g with
    | some r => some r
    | none => tryDrops k l g ns

/-- CPS backtracking matcher.  `matchRE r l k g` matches `r` at the front of
`l` and calls the continuation `k` with the remaining input and the capture
map; on failure of the continuation it backtracks through the remaining
choices, as a JS regex engine does. -/
def matchRE : RE → List Char →
    (List Char → List (Nat × String) → Option (List Char × List (Nat × String))) →
    List (Nat × String) → Option (List Char × List (Nat × String))
  | .eps, l, k, g => k l g
  | .lit s, l, k, g =>
    match stripPrefixChars s l with
    | some rest => k rest g
    | none => none
  | .one p, l, k, g =>
    match l with
    | [] => none
    | c :: cs => if p c then k cs g else none
  | .starG p, l, k, g => tryDrops k l g (descCounts (maxRun p l))
  | .plusG p, l, k, g =>
    let m := maxRun p l
    if m = 0 then none else tryDrops k l g (descCountsPos m)
  | .starL p, l, k, g => tryDrops k l g (ascCounts (maxRun p l))
  | .seq r1 r2, l, k, g => matchRE r1 l (fun l2 g2 => matchRE r2 l2 k g2) g
  | .alt r1 r2, l, k, g =>
    match matchRE r1 l k g with
    | some r => some r
    | none => matchRE r2 l k g
  | .grp i r, l, k, g =>
    matchRE r l (fun l2 g2 => k l2 ((i, String.mk (l.take (l.length - l2.length))) :: g2)) g

/-- Run a regex anchored at the current position; on success return the number
of characters consumed and the capture map (`lookup` finds the most recent
capture of a group; an optional group that did not participate is absent). -/
def runREAt (r : RE) (l : List Char) : Option (Nat × List (Nat × String)) :=
  match matchRE r l (fun rest g => some (rest, g)) [] with
  | some (rest, g) => some (l.length - rest.length, g)
  | none => none

/-- All matches of a global regex (`while ((m = re.exec(s)) !== null)`):
scan left to right, resuming after each match.  Fuelled by the input length;
every pattern used here consumes at least one character per match. -/
def scanAllAux (r : RE) : Nat → List Char → List (Nat × List (Nat × String))
  | 0, _ => []
  | _ + 1, [] => []
  | fuel + 1, c :: cs =>
    match runREAt r (c :: cs) with
    | some (len, g) => (len, g) :: scanAllAux r fuel (cs.drop (len - 1))
    | none => scanAllAux r fuel cs

/-- All matches of a global regex over a character list. -/
def scanAll (r : RE) (l : List Char) : List (Nat × List (Nat × String)) :=
  scanAllAux r l.length l

/-- Capture map of the first match of a non-global regex (`s.match(re)`). -/
def runFirst (r : RE) : List Char → Option (List (Nat × String))
  | [] => none
  | c :: cs =>
    match runREAt r (c :: cs) with
    | some (_, g) => some g
    | none => runFirst r cs

/-! ## Data model (`src/services/types.ts`, `src/services/DocumentProcessor.ts`)

JS numbers are modelled as exact rationals. -/

structure FunctionInfo where
  name : String
  visibility : String
  stateMutability : String
  parameters : List String
  returns : List String
  modifiers : List String
deriving DecidableEq

structure EventInfo where
  name : String
  parameters : List String
deriving DecidableEq

structure ModifierInfo where
  name : String
  parameters : List String
deriving DecidableEq

structure ContractAnalysis where
  fileName : String
  contractName : String
  functions : List FunctionInfo
  events : List EventInfo
  modifiers : List ModifierInfo
  imports : List String
  inheritance : List String
  complexity : ℚ
deriving DecidableEq

/-- A repository file; the `type` tag is one of the strings
`solidity | javascript | typescript | markdown | json | other`. -/
structure GitHubFile where
  name : String
  path : String
  content : String
  type : String
deriving DecidableEq

/-- `ProcessedRepository` (the untyped `structure: any` field, a nested
file-tree object used only for display, is not modelled). -/
structure ProcessedRepository where
  name : String
  description : String
  files : List GitHubFile
  dependencies : List String
  contractAnalysis : List ContractAnalysis
deriving DecidableEq

structure DocumentSection where
  title : String
  content : String
  level : ℚ
deriving DecidableEq

structure DocumentContent where
  title : String
  content : String
  sections : List DocumentSection
  links : List String
  images : List String
deriving DecidableEq

/-! ## ContractAnalyzer (`DocumentProcessor.parseSolidityContract` and helpers) -/

/-- `/contract\s+(\w+)/` — the contract-name regex. -/
def contractNameRE : RE :=
  seqAll [.lit "contract".data, .plusG isSpaceChar, .grp 1 (.plusG isWordChar)]

/-- `content.match(/contract\s+(\w+)/)`, group 1: name of the first declared
contract, or `none` when the file has no contract declaration. -/
def findContractName (content : String) : Option String :=
  (runFirst contractNameRE content.data).bind fun g => g.lookup 1

/-- `(public|private|internal|external)` — group 2 of the function regex. -/
def visKeywordRE : RE :=
  .alt (.lit "public".data) (.alt (.lit "private".data)
    (.alt (.lit "internal".data) (.lit "external".data)))

/-- `(pure|view|payable)` — group 3 of the function regex. -/
def mutKeywordRE : RE :=
  .alt (.lit "pure".data) (.alt (.lit "view".data) (.lit "payable".data))

/-- `(?:returns\s*\([^)]*\))` — the optional returns clause. -/
def returnsClauseRE : RE :=
  seqAll [.lit "returns".data, .starG isSpaceChar, .lit "(".data,
    .starG (fun c => !(c = ')')), .lit ")".data]

/-- `/function\s+(\w+)\s*\([^)]*\)\s*(public|private|internal|external)?\s*(pure|view|payable)?\s*(.*?)\s*(?:returns\s*\([^)]*\))?\s*{/g` -/
def functionRE : RE :=
  seqAll [.lit "function".data, .plusG isSpaceChar, .grp 1 (.plusG isWordChar),
    .starG isSpaceChar, .lit "(".data, .starG (fun c => !(c = ')')), .lit ")".data,
    .starG isSpaceChar, .alt (.grp 2 visKeywordRE) .eps,
    .starG isSpaceChar, .alt (.grp 3 mutKeywordRE) .eps,
    .starG isSpaceChar, .grp 4 (.starL isDotChar),
    .starG isSpaceChar, .alt returnsClauseRE .eps,
    .starG isSpaceChar, .lit "\x7b".data]

/-- Build a `FunctionInfo` from a function-regex match:
`match[2] || 'internal'`, `match[3] || 'nonpayable'`. -/
def functionOfMatch (g : List (Nat × String)) : FunctionInfo :=
  { name := (g.lookup 1).getD "",
    visibility := jsOrString (g.lookup 2) "internal",
    stateMutability := jsOrString (g.lookup 3) "nonpayable",
    parameters := [], returns := [], modifiers := [] }

/-- `DocumentProcessor.extractFunctions`. -/
def extractFunctions (content : String) : List FunctionInfo :=
  (scanAll functionRE content.data).map fun m => functionOfMatch m.2

/-- `/event\s+(\w+)\s*\([^)]*\)/g` -/
def eventRE : RE :=
  seqAll [.lit "event".data, .plusG isSpaceChar, .grp 1 (.plusG isWordChar),
    .starG isSpaceChar, .lit "(".data, .starG (fun c => !(c = ')')), .lit ")".data]

/-- `DocumentProcessor.extractEvents`. -/
def extractEvents (content : String) : List EventInfo :=
  (scanAll eventRE content.data).map fun m =>
    { name := (m.2.lookup 1).getD "", parameters := [] }

/-- `/modifier\s+(\w+)\s*\([^)]*\)/g` -/
def modifierRE : RE :=
  seqAll [.lit "modifier".data, .plusG isSpaceChar, .grp 1 (.plusG isWordChar),
    .starG isSpaceChar, .lit "(".data, .starG (fun c => !(c = ')')), .lit ")".data]

/-- `DocumentProcessor.extractModifiers`. -/
def extractModifiers (content : String) : List ModifierInfo :=
  (scanAll modifierRE content.data).map fun m =>
    { name := (m.2.lookup 1).getD "", parameters := [] }

/-- `/import\s+["']([^"']+)["']/g` -/
def importRE : RE :=
  seqAll [.lit "import".data, .plusG isSpaceChar, .one isQuoteChar,
    .grp 1 (.plusG (fun c => !(isQuoteChar c))), .one isQuoteChar]

/-- `DocumentProcessor.extractImports`. -/
def extractImports (content : String) : List String :=
  (scanAll importRE content.data).map fun m => (m.2.lookup 1).getD ""

/-- `/contract\s+\w+\s+is\s+([^{]+)/` -/
def inheritanceRE : RE :=
  seqAll [.lit "contract".data, .plusG isSpaceChar, .plusG isWordChar,
    .plusG isSpaceChar, .lit "is".data, .plusG isSpaceChar,
    .grp 1 (.plusG (fun c => !(c = '{')))]

/-- `DocumentProcessor.extractInheritance`:
`match[1].split(',').map(s => s.trim())`. -/
def extractInheritance (content : String) : List String :=
  match runFirst inheritanceRE content.data with
  | some g => (((g.lookup 1).getD "").splitOn ",").map String.trim
  | none => []

/-- `/function\s+\w+/g` — the count used by `calculateComplexity`. -/
def fnCountRE : RE :=
  seqAll [.lit "function".data, .plusG isSpaceChar, .plusG isWordChar]

/-- Number of matches of `/function\s+\w+/g`. -/
def countFunctionDecls (content : String) : Nat :=
  (scanAll fnCountRE content.data).length

/-- `/\.call\(|\.delegatecall\(|\.staticcall\(/g` -/
def extCallRE : RE :=
  .alt (.lit ".call(".data) (.alt (.lit ".delegatecall(".data) (.lit ".staticcall(".data))

/-- Number of matches of `/\.call\(|\.delegatecall\(|\.staticcall\(/g`. -/
def countExternalCalls (content : String) : Nat :=
  (scanAll extCallRE content.data).length

/-- Word-boundary check for the position after a keyword: `\b` holds when the
next character is not a word character (or there is none). -/
def condBoundaryOk : List Char → Bool
  | [] => true
  | c :: _ => !(isWordChar c)

/-- Match `(if|while|for)\b` at the current position, returning the matched
length.  The alternatives start with distinct characters, so at most one can
apply. -/
def matchCondKeyword (l : List Char) : Option Nat :=
  match stripPrefixChars "if".data l with
  | some rest => if condBoundaryOk rest then some 2 else none
  | none =>
    match stripPrefixChars "while".data l with
    | some rest => if condBoundaryOk rest then some 5 else none
    | none =>
      match stripPrefixChars "for".data l with
      | some rest => if condBoundaryOk rest then some 3 else none
      | none => none

/-- Global scan for `/\b(if|while|for)\b/g`.  The boolean argument records
whether the previous character was a word character (the left `\b`); the
position right after a matched keyword has a word character on its left.
Fuelled by the input length; each step consumes at least one character. -/
def countCondAux : Nat → Bool → List Char → Nat
  | 0, _, _ => 0
  | _ + 1, _, [] => 0
  | fuel + 1, prevIsWord, c :: cs =>
    match (if prevIsWord then none else matchCondKeyword (c :: cs)) with
    | some n => 1 + countCondAux fuel true (cs.drop (n - 1))
    | none => countCondAux fuel (isWordChar c) cs

/-- Number of matches of `/\b(if|while|for)\b/g`. -/
def countConditionals (content : String) : Nat :=
  countCondAux content.data.length false content.data

/-- `DocumentProcessor.calculateComplexity`:
```
let complexity = 0;
complexity += functionCount * 2;
complexity += conditionalCount;
complexity += externalCallCount * 3;
return Math.min(complexity / 10, 10);
```
All counts are integers, so the JS arithmetic is exact in `ℚ`. -/
def calculateComplexity (content : String) : ℚ :=
  let functionCount : ℚ := countFunctionDecls content
  let conditionalCount : ℚ := countConditionals content
  let externalCallCount : ℚ := countExternalCalls content
  let complexity := functionCount * 2 + conditionalCount + externalCallCount * 3
  min (complexity / 10) 10

/-- `DocumentProcessor.parseSolidityContract`: `null` when the file has no
contract declaration (the surrounding try/catch also returns `null` on an
exception; no step of this pure pipeline can throw). -/
def parseSolidityContract (file : GitHubFile) : Option ContractAnalysis :=
  match findContractName file.content with
  | none => none
  | some contractName =>
    some
      { fileName := file.name,
        contractName := contractName,
        functions := extractFunctions file.content,
        events := extractEvents file.content,
        modifiers := extractModifiers file.content,
        imports := extractImports file.content,
        inheritance := extractInheritance file.content,
        complexity := calculateComplexity file.content }

/-- `DocumentProcessor.analyzeSolidityContracts`: parse each `.sol` file,
skipping files without a contract (and, in the source, files whose analysis
throws — which the pure pipeline cannot). -/
def analyzeSolidityContracts (files : List GitHubFile) : List ContractAnalysis :=
  (files.filter fun f => f.type == "solidity").filterMap parseSolidityContract

/-! ## Report data model (`src/services/types.ts`) -/

structure EconomicModel where
  tokenomics : List String
  feeStructure : List String
  incentives : List String
  governance : String
deriving DecidableEq

structure ProtocolSummary where
  name : String
  description : String
  category : String
  complexityScore : ℚ
  overview : String
  keyFeatures : List String
  web3Fundamentals : String
  economicModel : EconomicModel
  riskAssessment : Option String
deriving DecidableEq

structure ContractInfo where
  name : String
  description : String
  functions : ℚ
  complexity : ℚ
  role : String
deriving DecidableEq

structure GasAnalysis where
  efficiency : ℚ
  optimizations : List String
  concerns : List String
deriving DecidableEq

structure ArchitectureAnalysis where
  coreContracts : List ContractInfo
  dependencies : List String
  dataFlow : String
  interactionDiagram : String
  inheritanceDiagram : String
  designPatterns : List String
  gasOptimization : GasAnalysis
deriving DecidableEq

structure VulnerabilityDetail where
  name : String
  description : String
  severity : String
  exploitability : String
  category : String
  mitigation : String
  codeReference : Option String
  docMismatch : Option Bool
  citation : Option String
deriving DecidableEq

/-- The runtime shape of the `vulnerabilities` array.  The TS interface
declares `VulnerabilityDetail[]`, but `mergeSecurityAnalyses` additionally
guards against a legacy shape holding plain strings (it checks
`typeof vulnerabilities[0] === 'string'`), so both shapes are modelled. -/
inductive VulnField where
  | strs : List String → VulnField
  | details : List VulnerabilityDetail → VulnField
deriving DecidableEq

structure SecurityAnalysis where
  rating : String
  businessLogic : String
  strengths : List String
  vulnerabilities : VulnField
  recommendations : List String
  auditStatus : String
  documentationCodeMismatches : List String
deriving DecidableEq

structure AnalysisResult where
  summary : ProtocolSummary
  architecture : ArchitectureAnalysis
  security : SecurityAnalysis
  timestamp : String
deriving DecidableEq

/-- The entries of a runtime vulnerabilities array. -/
def vulnEntries : VulnField → List (String ⊕ VulnerabilityDetail)
  | .strs ss => ss.map Sum.inl
  | .details ds => ds.map Sum.inr

/-! ## HeuristicSynthesizer (`AnalysisEngine`) -/

/-- `AnalysisEngine.determineProtocolCategory`: cascading `includes` checks on
the lower-cased concatenation of document content and repo description. -/
def determineProtocolCategory (repoData : ProcessedRepository) (docsData : DocumentContent) : String :=
  let content := toLowerString (docsData.content ++ repoData.description)
  if containsSub content "lending" || containsSub content "borrow" then "Lending Protocol"
  else if containsSub content "derivative" || containsSub content "perpetual" || containsSub content "futures" then "Derivatives Trading"
  else if containsSub content "yield" || containsSub content "farm" || containsSub content "stake" then "Yield Farming"
  else if containsSub content "governance" || containsSub content "voting" || containsSub content "dao" then "Governance Protocol"
  else if containsSub content "bridge" || containsSub content "cross-chain" then "Cross-Chain Bridge"
  else if containsSub content "nft" || containsSub content "erc721" || containsSub content "erc1155" then "NFT Protocol"
  else if containsSub content "token" && containsSub content "manage" then "Token Management"
  else if containsSub content "risk" || containsSub content "insurance" then "Risk Management"
  else if containsSub content "defi" || containsSub content "swap" || containsSub content "liquidity" then "DeFi Protocol"
  else "Other"

/-- `AnalysisEngine.calculateAverageComplexity`: neutral default 5 when there
are no analyzed contracts, else the average rounded to one decimal
(`Math.round(x)` is `⌊x + 1/2⌋`, which is Mathlib's `round`). -/
def calculateAverageComplexity (repoData : ProcessedRepository) : ℚ :=
  if repoData.contractAnalysis.length = 0 then 5
  else
    let total := (repoData.contractAnalysis.map (·.complexity)).sum
    ((round ((total / repoData.contractAnalysis.length) * 10) : ℤ) : ℚ) / 10

/-- `contracts.some(c => c.imports.some(imp => imp.includes('AccessControl') || imp.includes('Ownable')))` -/
def hasAccessControlIn (contracts : List ContractAnalysis) : Bool :=
  contracts.any fun c => c.imports.any fun imp =>
    containsSub imp "AccessControl" || containsSub imp "Ownable"

/-- `contracts.some(c => c.imports.some(imp => imp.includes('ReentrancyGuard')))` -/
def hasReentrancyGuardIn (contracts : List ContractAnalysis) : Bool :=
  contracts.any fun c => c.imports.any fun imp => containsSub imp "ReentrancyGuard"

/-- `contracts.some(c => c.imports.some(imp => imp.includes('Pausable')))` -/
def hasPausableIn (contracts : List ContractAnalysis) : Bool :=
  contracts.any fun c => c.imports.any fun imp => containsSub imp "Pausable"

/-- `contracts.some(c => c.contractName.toLowerCase().includes('timelock'))` -/
def hasTimelockIn (contracts : List ContractAnalysis) : Bool :=
  contracts.any fun c => containsSub (toLowerString c.contractName) "timelock"

/-- `contracts.some(c => c.contractName.toLowerCase().includes('multisig'))` -/
def hasMultisigIn (contracts : List ContractAnalysis) : Bool :=
  contracts.any fun c => containsSub (toLowerString c.contractName) "multisig"

/-- `dependencies.some(dep => dep.includes('openzeppelin'))` -/
def usesOpenZeppelin (dependencies : List String) : Bool :=
  dependencies.any fun dep => containsSub dep "openzeppelin"

/-- The raw (unrounded) average complexity
`contracts.reduce((sum, c) => sum + c.complexity, 0) / contracts.length`,
meaningful only for a non-empty list (in JS the empty case is NaN). -/
def avgComplexityOf (contracts : List ContractAnalysis) : ℚ :=
  (contracts.map (·.complexity)).sum / contracts.length

/-- The score-to-letter-grade threshold table of
`AnalysisEngine.calculateSecurityRating`. -/
def gradeOf (score : ℚ) : String :=
  if score ≥ 95 then "A+"
  else if score ≥ 90 then "A"
  else if score ≥ 85 then "A-"
  else if score ≥ 80 then "B+"
  else if score ≥ 75 then "B"
  else if score ≥ 70 then "B-"
  else if score ≥ 65 then "C+"
  else if score ≥ 60 then "C"
  else if score ≥ 55 then "C-"
  else if score ≥ 50 then "D"
  else "F"

/-- The complexity deduction of `AnalysisEngine.calculateSecurityRating`:
`if (avgComplexity > 8) score -= 15; else if (avgComplexity > 6) score -= 10;`.
In JS the average of an empty list is `0/0 = NaN`, and both comparisons
`NaN > 8` and `NaN > 6` are false, so the empty case deducts nothing. -/
def complexityPenalty (contracts : List ContractAnalysis) : ℚ :=
  if contracts.length = 0 then 0
  else if avgComplexityOf contracts > 8 then 15
  else if avgComplexityOf contracts > 6 then 10
  else 0

/-- The numeric score of `AnalysisEngine.calculateSecurityRating`: base score
70, bonuses +10 (access control), +10 (reentrancy guard), +5 (pausable),
minus the complexity penalty. -/
def securityScore (contracts : List ContractAnalysis) : ℚ :=
  70 + (if hasAccessControlIn contracts then 10 else 0)
     + (if hasReentrancyGuardIn contracts then 10 else 0)
     + (if hasPausableIn contracts then 5 else 0)
     - complexityPenalty contracts

/-- `AnalysisEngine.calculateSecurityRating`: the numeric score mapped through
the ordered grade threshold table. -/
def calculateSecurityRating (contracts : List ContractAnalysis) : String :=
  gradeOf (securityScore contracts)

/-- The fixed grade set `A+ … F`. -/
def gradeSet : List String :=
  ["A+", "A", "A-", "B+", "B", "B-", "C+", "C", "C-", "D", "F"]

/-- Rank of a grade, higher is better (for stating monotonicity). -/
def gradeValue : String → Nat
  | "A+" => 10
  | "A" => 9
  | "A-" => 8
  | "B+" => 7
  | "B" => 6
  | "B-" => 5
  | "C+" => 4
  | "C" => 3
  | "C-" => 2
  | "D" => 1
  | _ => 0

/-- `AnalysisEngine.extractSecurityStrengths`: ordered detector rules, with
the fixed non-empty default when no rule fires.  (The `docsData` parameter is
unused by the source body but kept for signature fidelity.) -/
def extractSecurityStrengths (repoData : ProcessedRepository) (_docsData : DocumentContent) : List String :=
  let strengths :=
    (if hasAccessControlIn repoData.contractAnalysis then ["Comprehensive access control implementation with role-based permissions"] else []) ++
    (if hasReentrancyGuardIn repoData.contractAnalysis then ["Reentrancy protection implemented across critical functions"] else []) ++
    (if hasPausableIn repoData.contractAnalysis then ["Emergency pause mechanisms for crisis management"] else []) ++
    (if hasTimelockIn repoData.contractAnalysis then ["Timelock delays for critical administrative functions"] else []) ++
    (if hasMultisigIn repoData.contractAnalysis then ["Multi-signature wallet integration for enhanced security"] else []) ++
    (if usesOpenZeppelin repoData.dependencies then ["Utilizes battle-tested OpenZeppelin security libraries"] else []) ++
    (if repoData.contractAnalysis.any (fun c => !c.events.isEmpty) then ["Comprehensive event logging for transparency and monitoring"] else [])
  if strengths.length > 0 then strengths else ["Basic security measures implemented"]

/-- `AnalysisEngine.generateSecurityRecommendations`. -/
def generateSecurityRecommendations (repoData : ProcessedRepository) (docsData : DocumentContent) : List String :=
  (if !hasReentrancyGuardIn repoData.contractAnalysis then ["Implement reentrancy guards on all state-changing functions"] else []) ++
  (if !hasPausableIn repoData.contractAnalysis then ["Add emergency pause functionality for crisis management"] else []) ++
  (if !hasTimelockIn repoData.contractAnalysis then ["Implement timelock delays for administrative functions"] else []) ++
  (if calculateAverageComplexity repoData > 7 then
    ["Consider breaking down complex contracts into smaller, more manageable modules",
     "Conduct thorough testing of complex business logic paths"] else []) ++
  (if containsSub (toLowerString docsData.content) "oracle" then
    ["Implement oracle price validation and circuit breakers",
     "Consider using multiple oracle sources for price feed redundancy"] else []) ++
  ["Conduct comprehensive security audit before mainnet deployment",
   "Implement comprehensive monitoring and alerting systems"]

/-- `AnalysisEngine.checkAuditStatus`. -/
def checkAuditStatus (repoData : ProcessedRepository) (docsData : DocumentContent) : String :=
  let content := toLowerString (docsData.content ++ repoData.description)
  if containsSub content "audited by" || containsSub content "audit report" then
    "Security audit completed - review audit reports for detailed findings"
  else if containsSub content "audit" && containsSub content "pending" then
    "Security audit in progress - awaiting completion"
  else if containsSub content "audit" && containsSub content "planned" then
    "Security audit planned but not yet initiated"
  else
    "No public audit information available - recommend professional security review"

/-- Decimal rendering of a nonnegative JS number that is a multiple of 1/10
(the only values the source interpolates): integers print without a decimal
point, e.g. `5` and `5.2`. -/
def formatTenths (q : ℚ) : String :=
  let t : ℤ := ⌊q * 10⌋
  if t % 10 = 0 then toString (t / 10) else toString (t / 10) ++ "." ++ toString (t % 10)

/-- `AnalysisEngine.analyzeBusinessLogic`: narrative assembled from
conditional sentence fragments. -/
def analyzeBusinessLogic (repoData : ProcessedRepository) (docsData : DocumentContent) : String :=
  let contractCount := repoData.contractAnalysis.length
  let avgComplexity := calculateAverageComplexity repoData
  let hasGovernance := containsSub (toLowerString docsData.content) "governance" ||
    repoData.contractAnalysis.any fun c => containsSub (toLowerString c.contractName) "governance"
  let a1 := "The protocol\x27s business logic centers around " ++ toString contractCount ++
    " smart contracts with an average complexity of " ++ formatTenths avgComplexity ++ "/10. "
  let a2 := if hasGovernance then
      a1 ++ "The system incorporates governance mechanisms for decentralized decision-making, allowing token holders to participate in protocol upgrades and parameter adjustments. "
    else a1
  let a3 := a2 ++ "Core business operations are distributed across multiple contracts to ensure modularity and upgradeability. "
  let hasVault := repoData.contractAnalysis.any fun c => containsSub (toLowerString c.contractName) "vault"
  let a4 := if hasVault then
      a3 ++ "Asset management is handled through vault contracts that secure user funds and manage liquidity. "
    else a3
  let hasOracle := containsSub (toLowerString docsData.content) "oracle" ||
    repoData.contractAnalysis.any fun c => containsSub (toLowerString c.contractName) "oracle"
  let a5 := if hasOracle then
      a4 ++ "The protocol relies on external price feeds and oracles for accurate market data, introducing dependencies on third-party services. "
    else a4
  a5 ++ "The business logic emphasizes " ++
    (if avgComplexity > 7 then "sophisticated" else "straightforward") ++ " operations with " ++
    (if avgComplexity > 7 then "multiple layers of validation and complex state management"
     else "clear execution paths and minimal state complexity") ++ "."

/-- `AnalysisEngine.generateSecurityAnalysis`: the synthesized base security
analysis.  Its vulnerabilities list is the literal
`const vulnerabilities: VulnerabilityDetail[] = []; // Will be populated by LLM`. -/
def generateSecurityAnalysis (repoData : ProcessedRepository) (docsData : DocumentContent) : SecurityAnalysis :=
  { rating := calculateSecurityRating repoData.contractAnalysis,
    businessLogic := analyzeBusinessLogic repoData docsData,
    strengths := extractSecurityStrengths repoData docsData,
    vulnerabilities := .details [],
    recommendations := generateSecurityRecommendations repoData docsData,
    auditStatus := checkAuditStatus repoData docsData,
    documentationCodeMismatches := [] }

/-! ## EnhancementReconciler (`AnalysisEngine.mergeAnalyses`,
`AnalysisEngine.mergeSecurityAnalyses`)

The enhancement report comes from `JSON.parse` of untrusted LLM output, so
every sub-object and field may be absent; absence is modelled with `Option`.
Accessing a property of an absent object throws a `TypeError`, modelled in
`Except`; the try/catch blocks of the source are the `match` wrappers that
fall back to the base value. -/

structure LLMSummary where
  overview : Option String
  keyFeatures : Option (List String)
  web3Fundamentals : Option String
  economicModel : Option EconomicModel
  riskAssessment : Option String
deriving DecidableEq

structure LLMGasAnalysis where
  optimizations : Option (List String)
  concerns : Option (List String)
deriving DecidableEq

structure LLMArchitecture where
  designPatterns : Option (List String)
  dataFlow : Option String
  interactionDiagram : Option String
  inheritanceDiagram : Option String
  gasOptimization : Option LLMGasAnalysis
deriving DecidableEq

structure LLMSecurity where
  rating : Option String
  businessLogic : Option String
  strengths : Option (List String)
  vulnerabilities : Option (List VulnerabilityDetail)
  recommendations : Option (List String)
  auditStatus : Option String
  documentationCodeMismatches : Option (List String)
deriving DecidableEq

structure LLMResult where
  summary : Option LLMSummary
  architecture : Option LLMArchitecture
  security : Option LLMSecurity
deriving DecidableEq

/-- The conversion at the top of `mergeSecurityAnalyses`: when the base
vulnerabilities array holds plain strings (and is non-empty — checked via
`typeof vulnerabilities[0] === 'string'`), each string is coerced to a
structured detail with Medium severity; otherwise the array is used as
structured details.  (An empty legacy string array is cast unchanged, which
coincides with mapping the empty list.) -/
def coerceBaseVulnerabilities : VulnField → List VulnerabilityDetail
  | .strs ss =>
    ss.map fun vuln =>
      { name := vuln, description := vuln, severity := "Medium",
        exploitability := "Medium", category := "General",
        mitigation := "Review and address this vulnerability",
        codeReference := none, docMismatch := none, citation := none }
  | .details ds => ds

/-- The body of the `try` block of `AnalysisEngine.mergeSecurityAnalyses`.
A `null`/`undefined` `llmSecurity` throws a `TypeError` at the first property
access (`llmSecurity.rating`), modelled as `Except.error`. -/
def tryMergeSecurityAnalyses (baseSecurity : SecurityAnalysis)
    (llmSecurity : Option LLMSecurity) : Except Unit SecurityAnalysis :=
  match llmSecurity with
  | none => Except.error ()
  | some l =>
    let baseVulnerabilities := coerceBaseVulnerabilities baseSecurity.vulnerabilities
    Except.ok
      { rating := jsOrString l.rating baseSecurity.rating,
        businessLogic := jsOrString l.businessLogic baseSecurity.businessLogic,
        strengths := dedupFirst (baseSecurity.strengths ++ (l.strengths.getD [])),
        vulnerabilities :=
          match l.vulnerabilities with
          | some vs => if vs.length > 0 then .details vs else .details baseVulnerabilities
          | none => .details baseVulnerabilities,
        recommendations := dedupFirst (baseSecurity.recommendations ++ (l.recommendations.getD [])),
        auditStatus := jsOrString l.auditStatus baseSecurity.auditStatus,
        documentationCodeMismatches := l.documentationCodeMismatches.getD [] }

/-- `AnalysisEngine.mergeSecurityAnalyses`: the catch returns the base
security analysis unmodified. -/
def mergeSecurityAnalyses (baseSecurity : SecurityAnalysis)
    (llmSecurity : Option LLMSecurity) : SecurityAnalysis :=
  match tryMergeSecurityAnalyses baseSecurity llmSecurity with
  | .ok r => r
  | .error _ => baseSecurity

/-- `llmResult.architecture?.gasOptimization?.<field> || []` — optional
chaining never throws. -/
def optionalChainGas (arch : Option LLMArchitecture)
    (proj : LLMGasAnalysis → Option (List String)) : List String :=
  match arch with
  | none => []
  | some a =>
    match a.gasOptimization with
    | none => []
    | some gas => (proj gas).getD []

/-- The body of the `try` block of `AnalysisEngine.mergeAnalyses`.  An absent
`llmResult`, `llmResult.summary` or `llmResult.architecture` throws a
`TypeError` at the property accesses the source performs without optional
chaining (`llmResult.summary.overview`,
`llmResult.architecture.designPatterns`), modelled as `Except.error`; the
fresh `timestamp` (`new Date().toISOString()`) is passed in as `now`. -/
def tryMergeAnalyses (baseResult : AnalysisResult) (llmResult : Option LLMResult)
    (now : String) : Except Unit AnalysisResult :=
  match llmResult with
  | none => Except.error ()
  | some l =>
  match l.summary with
  | none => Except.error ()
  | some s =>
  match l.architecture with
  | none => Except.error ()
  | some a =>
  Except.ok
    { summary :=
        { baseResult.summary with
          overview := jsOrString s.overview baseResult.summary.overview,
          keyFeatures := dedupFirst (baseResult.summary.keyFeatures ++ (s.keyFeatures.getD [])),
          web3Fundamentals := jsOrString s.web3Fundamentals baseResult.summary.web3Fundamentals,
          economicModel := s.economicModel.getD baseResult.summary.economicModel,
          riskAssessment := jsOrOptString s.riskAssessment baseResult.summary.riskAssessment },
      architecture :=
        { baseResult.architecture with
          designPatterns := dedupFirst (baseResult.architecture.designPatterns ++ (a.designPatterns.getD [])),
          dataFlow := jsOrString a.dataFlow baseResult.architecture.dataFlow,
          interactionDiagram := jsOrString a.interactionDiagram baseResult.architecture.interactionDiagram,
          inheritanceDiagram := jsOrString a.inheritanceDiagram baseResult.architecture.inheritanceDiagram,
          gasOptimization :=
            { baseResult.architecture.gasOptimization with
              optimizations := dedupFirst (baseResult.architecture.gasOptimization.optimizations ++
                optionalChainGas l.architecture (fun g => g.optimizations)),
              concerns := dedupFirst (baseResult.architecture.gasOptimization.concerns ++
                optionalChainGas l.architecture (fun g => g.concerns)) } },
      security := mergeSecurityAnalyses baseResult.security l.security,
      timestamp := now }

/-- `AnalysisEngine.mergeAnalyses`: total merge; the catch returns the base
result unmodified. -/
def mergeAnalyses (baseResult : AnalysisResult) (llmResult : Option LLMResult)
    (now : String) : AnalysisResult :=
  match tryMergeAnalyses baseResult llmResult now with
  | .ok r => r
  | .error _ => baseResult

/-! ## Concrete sample inputs used by witnesses and counterexamples -/

/-- A Solidity file whose regex counts match the profile of the worked example
in the specification: 3 functions, 1 modifier, 2 conditionals, 0 loops. -/
def complexityExampleSource : String :=
  "function f1() { if (a) {} if (b) {} }\nfunction f2() {}\nfunction f3() {}\nmodifier onlyOwner() {}"

def vaultFile : GitHubFile :=
  { name := "Vault.sol", path := "contracts/Vault.sol",
    content := "contract Vault is Ownable { function pause() public {} }",
    type := "solidity" }

def readmeFile : GitHubFile :=
  { name := "README.md", path := "README.md",
    content := "no declaration in here", type := "solidity" }

def lowContract : ContractAnalysis :=
  { fileName := "low.sol", contractName := "Low", functions := [], events := [],
    modifiers := [], imports := [], inheritance := [], complexity := 2 }

def highContract : ContractAnalysis :=
  { fileName := "high.sol", contractName := "High", functions := [], events := [],
    modifiers := [], imports := [], inheritance := [], complexity := 9 }

def emptyRepo : ProcessedRepository :=
  { name := "repo", description := "", files := [], dependencies := [],
    contractAnalysis := [] }

def lowRepo : ProcessedRepository :=
  { name := "repo", description := "", files := [], dependencies := [],
    contractAnalysis := [lowContract] }

def emptyDocs : DocumentContent :=
  { title := "", content := "", sections := [], links := [], images := [] }

def swapLendingDocs : DocumentContent :=
  { title := "docs", content := "a protocol for swap and lending markets",
    sections := [], links := [], images := [] }

def sampleEconomicModel : EconomicModel :=
  { tokenomics := ["tok"], feeStructure := ["fee"], incentives := ["inc"],
    governance := "gov" }

def sampleVuln0 : VulnerabilityDetail :=
  { name := "base-vuln", description := "a base finding", severity := "Low",
    exploitability := "Low", category := "General", mitigation := "none",
    codeReference := none, docMismatch := none, citation := none }

def sampleVuln1 : VulnerabilityDetail :=
  { name := "llm-vuln", description := "an enhancement finding", severity := "High",
    exploitability := "High", category := "General", mitigation := "fix it",
    codeReference := none, docMismatch := none, citation := none }

def sampleBase : AnalysisResult :=
  { summary :=
      { name := "P", description := "d", category := "Other", complexityScore := 5,
        overview := "o", keyFeatures := ["feat0"], web3Fundamentals := "w",
        economicModel := sampleEconomicModel, riskAssessment := none },
    architecture :=
      { coreContracts := [], dependencies := [], dataFlow := "df",
        interactionDiagram := "id", inheritanceDiagram := "ihd",
        designPatterns := ["pat0"],
        gasOptimization := { efficiency := 5, optimizations := ["opt0"], concerns := ["con0"] } },
    security :=
      { rating := "B-", businessLogic := "bl", strengths := ["str0"],
        vulnerabilities := .details [sampleVuln0], recommendations := ["rec0"],
        auditStatus := "none", documentationCodeMismatches := [] },
    timestamp := "t0" }

/-- An enhancement that supplies only a non-empty structured vulnerability
list; every other field is absent. -/
def sampleEnhancement : LLMResult :=
  { summary := some
      { overview := none, keyFeatures := none, web3Fundamentals := none,
        economicModel := none, riskAssessment := none },
    architecture := some
      { designPatterns := none, dataFlow := none, interactionDiagram := none,
        inheritanceDiagram := none, gasOptimization := none },
    security := some
      { rating := none, businessLogic := none, strengths := none,
        vulnerabilities := some [sampleVuln1], recommendations := none,
        auditStatus := none, documentationCodeMismatches := none } }

/-- The amended complexity formula (what the code actually computes), stated
from the corrected specification wording for comparison with
`calculateComplexity`: `min((2·functionCount + conditionalCount +
3·externalCallCount) / 10, 10)`. -/
def complexityFormulaAmended (functionCount conditionalCount externalCallCount : Nat) : ℚ :=
  min ((2 * functionCount + conditionalCount + 3 * externalCallCount : ℚ) / 10) 10

/-- The record extracted from `function foo() {` — no visibility or
mutability keyword declared. -/
def fooFunctionInfo : FunctionInfo :=
  { name := "foo", visibility := "internal", stateMutability := "nonpayable",
    parameters := [], returns := [], modifiers := [] }

/-- The analysis record `parseSolidityContract` produces for `vaultFile`. -/
def vaultParsed : ContractAnalysis :=
  { fileName := vaultFile.name, contractName := "Vault",
    functions := extractFunctions vaultFile.content,
    events := extractEvents vaultFile.content,
    modifiers := extractModifiers vaultFile.content,
    imports := extractImports vaultFile.content,
    inheritance := extractInheritance vaultFile.content,
    complexity := calculateComplexity vaultFile.content }

/-! ## Helper lemmas -/

theorem mem_dedupFirstAux {α : Type} [DecidableEq α] (x : α) :
    ∀ (fuel : Nat) (l : List α), l.length ≤ fuel → x ∈ l → x ∈ dedupFirstAux fuel l := by
  intro fuel
  induction fuel with
  | zero =>
    intro l hl hx
    cases l with
    | nil => cases hx
    | cons a as => simp at hl
  | succ n ih =>
    intro l hl hx
    cases l with
    | nil => cases hx
    | cons a as =>
      rw [dedupFirstAux]
      rcases List.mem_cons.mp hx with rfl | hx2
      · exact List.mem_cons_self _ _
      · by_cases hxa : x = a
        · subst hxa; exact List.mem_cons_self _ _
        · refine List.mem_cons_of_mem _ (ih _ ?_ ?_)
          · calc (as.filter fun y => !(y == a)).length
                ≤ as.length := List.length_filter_le _ _
              _ ≤ n := Nat.le_of_succ_le_succ hl
          · exact List.mem_filter.mpr ⟨hx2, by simp [hxa]⟩

/-- `dedupFirst` keeps every element of the list. -/
theorem mem_dedupFirst {α : Type} [DecidableEq α] {x : α} {l : List α} (h : x ∈ l) :
    x ∈ dedupFirst l :=
  mem_dedupFirstAux x l.length l le_rfl h

/-- Base elements survive the JS set-union `[...new Set([...base, ...extra])]`. -/
theorem mem_dedupFirst_append_left {α : Type} [DecidableEq α] {x : α} {l1 : List α}
    (l2 : List α) (h : x ∈ l1) : x ∈ dedupFirst (l1 ++ l2) :=
  mem_dedupFirst (List.mem_append_left _ h)

/-- The grade table is total: every score gets one of the eleven grades. -/
theorem gradeOf_mem (s : ℚ) : gradeOf s ∈ gradeSet := by
  rw [gradeOf]
  repeat' split
  all_goals simp [gradeSet]

/-- The penalty can only take the values 0, 10 and 15. -/
theorem complexityPenalty_cases (contracts : List ContractAnalysis) :
    complexityPenalty contracts = 0 ∨ complexityPenalty contracts = 10 ∨
      complexityPenalty contracts = 15 := by
  rw [complexityPenalty]
  split_ifs <;> simp

/-- The penalty is monotone in the average complexity (for non-empty lists). -/
theorem complexityPenalty_mono {l1 l2 : List ContractAnalysis}
    (hn1 : ¬l1.length = 0) (hn2 : ¬l2.length = 0)
    (havg : avgComplexityOf l1 ≤ avgComplexityOf l2) :
    complexityPenalty l1 ≤ complexityPenalty l2 := by
  rw [complexityPenalty, complexityPenalty, if_neg hn1, if_neg hn2]
  split_ifs <;> linarith

/-- Evaluation of `calculateComplexity` on the example file with 3 functions,
1 modifier, 2 conditionals and 0 loops. -/
theorem calculateComplexity_example_eval :
    calculateComplexity complexityExampleSource = 4 / 5 := by
  have h1 : countFunctionDecls complexityExampleSource = 3 := by decide
  have h2 : countConditionals complexityExampleSource = 2 := by decide
  have h3 : countExternalCalls complexityExampleSource = 0 := by decide
  rw [calculateComplexity, h1, h2, h3]
  norm_num

/-- Evaluation of `calculateComplexity` on an empty file (all counts zero). -/
theorem calculateComplexity_empty_eval : calculateComplexity "" = 0 := by
  have h1 : countFunctionDecls "" = 0 := by decide
  have h2 : countConditionals "" = 0 := by decide
  have h3 : countExternalCalls "" = 0 := by decide
  rw [calculateComplexity, h1, h2, h3]
  norm_num

/-- A list-or-default selection with a non-empty default is non-empty. -/
theorem ite_length_default_ne_nil {α : Type} {l d : List α} (hd : d ≠ []) :
    (if l.length > 0 then l else d) ≠ [] := by
  split
  next h => exact List.length_pos.mp h
  next => exact hd

/-- The strengths list ends with a non-empty default substitution. -/
theorem extractSecurityStrengths_ne_nil (r : ProcessedRepository) (d : DocumentContent) :
    extractSecurityStrengths r d ≠ [] := by
  simp only [extractSecurityStrengths]
  exact ite_length_default_ne_nil (by simp)

/-! ## Claims -/

/-- C10: with an empty contract list the security rating computation returns
exactly B-: the base score 70 gets no feature bonus, and the complexity
penalty is skipped because the JS average is the NaN of 0/0, which compares
false against both penalty thresholds. -/
theorem c10_rating_empty_contracts : calculateSecurityRating [] = "B-" := by
  norm_num [calculateSecurityRating, securityScore, complexityPenalty,
    hasAccessControlIn, hasReentrancyGuardIn, hasPausableIn, gradeOf]

/-- C2 counterexample: a document containing both the exchange keyword `swap`
and the lending keyword `lending` is classified as the lending category, not
the exchange category (`DeFi Protocol`, the branch holding `swap`), because
the code tests lending/borrow first — the claimed priority order is false. -/
theorem c2_counterexample :
    containsSub (toLowerString (swapLendingDocs.content ++ emptyRepo.description)) "swap" = true ∧
    containsSub (toLowerString (swapLendingDocs.content ++ emptyRepo.description)) "lending" = true ∧
    determineProtocolCategory emptyRepo swapLendingDocs = "Lending Protocol" ∧
    ("Lending Protocol" : String) ≠ "DeFi Protocol" :=
  ⟨by decide, by decide, by decide, by decide⟩

/-- C2 (amended): the keyword groups are tested in the fixed order
lending/borrow, derivatives, yield, governance, bridge, NFT, token management,
risk, defi/swap/liquidity, with first match winning; hence every input whose
lower-cased document text plus description contains both an exchange keyword
(`swap`) and a lending keyword (`lending`) is classified `Lending Protocol`. -/
theorem c2_lending_priority : ∀ (repoData : ProcessedRepository) (docsData : DocumentContent),
    containsSub (toLowerString (docsData.content ++ repoData.description)) "swap" = true →
    containsSub (toLowerString (docsData.content ++ repoData.description)) "lending" = true →
    determineProtocolCategory repoData docsData = "Lending Protocol" := by
  intro repoData docsData _ hlend
  simp [determineProtocolCategory, hlend]

/-- C2 witness: the amended priority statement at a concrete input. -/
theorem c2_witness : determineProtocolCategory emptyRepo swapLendingDocs = "Lending Protocol" :=
  c2_lending_priority emptyRepo swapLendingDocs (by decide) (by decide)

/-- C8: a file whose content has no `contract <Name>` declaration yields the
`no contract` outcome (`null`), with no exception; when declarations exist,
the contract name recorded is that of the first match of
`/contract\s+(\w+)/`.  (The Lean embedding is total, so absence of exceptions
is by construction; the source additionally guards with a try/catch that also
returns `null`.) -/
theorem c8_no_contract_and_first_name : ∀ (file : GitHubFile),
    (findContractName file.content = none → parseSolidityContract file = none) ∧
    (∀ nm, findContractName file.content = some nm →
      ∃ a, parseSolidityContract file = some a ∧ a.contractName = nm) := by
  intro file
  constructor
  · intro h
    rw [parseSolidityContract, h]
  · intro nm h
    rw [parseSolidityContract, h]
    exact ⟨_, rfl, rfl⟩

/-- C8 witness: a file without a declaration parses to `none`; a file
declaring `contract Vault is Ownable` parses with contract name `Vault`. -/
theorem c8_witness :
    parseSolidityContract readmeFile = none ∧
    ∃ a, parseSolidityContract vaultFile = some a ∧ a.contractName = "Vault" :=
  ⟨(c8_no_contract_and_first_name readmeFile).1 (by decide),
   (c8_no_contract_and_first_name vaultFile).2 "Vault" (by decide)⟩

/-- C9 counterexample: a function declared without a visibility keyword is
recorded with visibility `internal`, not `external` as claimed. -/
theorem c9_counterexample :
    (extractFunctions "function foo() \x7b").map (fun f => f.visibility) = ["internal"] ∧
    ("internal" : String) ≠ "external" :=
  ⟨by decide, by decide⟩

/-- C9 (amended): every extracted function records `match[2] || 'internal'`
and `match[3] || 'nonpayable'`, so a declaration without a visibility keyword
defaults to `internal` (not `external`) and one without a mutability keyword
defaults to `nonpayable`; concretely, `function foo() {` yields
(`internal`, `nonpayable`) and `function bar() public view {` yields the
declared keywords. -/
theorem c9_visibility_defaults :
    (∀ (content : String) (f : FunctionInfo), f ∈ extractFunctions content →
      ∃ g : List (Nat × String), f = functionOfMatch g ∧
        (g.lookup 2 = none → f.visibility = "internal") ∧
        (g.lookup 3 = none → f.stateMutability = "nonpayable")) ∧
    extractFunctions "function foo() \x7b" = [fooFunctionInfo] ∧
    extractFunctions "function bar() public view \x7b" =
      [{ name := "bar", visibility := "public", stateMutability := "view",
         parameters := [], returns := [], modifiers := [] }] := by
  refine ⟨?_, by decide, by decide⟩
  intro content f hf
  rw [extractFunctions] at hf
  obtain ⟨m, _, rfl⟩ := List.mem_map.mp hf
  exact ⟨m.2, rfl, fun h2 => by simp [functionOfMatch, jsOrString, h2],
    fun h3 => by simp [functionOfMatch, jsOrString, h3]⟩

/-- C9 witness: the defaulting statement applied to the concrete declaration
`function foo() {`. -/
theorem c9_witness :
    ∃ g : List (Nat × String), fooFunctionInfo = functionOfMatch g ∧
      (g.lookup 2 = none → fooFunctionInfo.visibility = "internal") ∧
      (g.lookup 3 = none → fooFunctionInfo.stateMutability = "nonpayable") :=
  c9_visibility_defaults.1 "function foo() \x7b" fooFunctionInfo
    (by rw [show extractFunctions "function foo() \x7b" = [fooFunctionInfo] from by decide]
        exact List.mem_singleton.mpr rfl)

/-- C1 counterexample: on a file with 3 functions, 1 modifier, 2 conditionals
and 0 loops the computed complexity is 0.8, not the claimed 5.2; and on a
file with all counts zero it is 0, not the claimed 3. -/
theorem c1_counterexample :
    countFunctionDecls complexityExampleSource = 3 ∧
    (extractModifiers complexityExampleSource).length = 1 ∧
    countConditionals complexityExampleSource = 2 ∧
    calculateComplexity complexityExampleSource = 4 / 5 ∧
    ((4 : ℚ) / 5) ≠ 26 / 5 ∧
    calculateComplexity "" = 0 ∧
    ((0 : ℚ) ≠ 3) :=
  ⟨by decide, by decide, by decide, calculateComplexity_example_eval, by norm_num,
    calculateComplexity_empty_eval, by norm_num⟩

/-- C1 (amended): for every analyzed file the complexity score equals
`min((functionCount·2 + conditionalCount + externalCallCount·3) / 10, 10)`,
where the counts are the matches of `/function\s+\w+/g`,
`/\b(if|while|for)\b/g` and the external-call patterns; in particular the
3-function/1-modifier/2-conditional example yields 0.8 and an empty file
yields 0. -/
theorem c1_complexity_formula :
    (∀ content : String, calculateComplexity content =
      complexityFormulaAmended (countFunctionDecls content) (countConditionals content)
        (countExternalCalls content)) ∧
    calculateComplexity complexityExampleSource = 4 / 5 ∧
    calculateComplexity "" = 0 := by
  refine ⟨?_, calculateComplexity_example_eval, calculateComplexity_empty_eval⟩
  intro content
  simp only [calculateComplexity, complexityFormulaAmended]
  congr 1
  ring

/-- C7 counterexample: the synthesized base security analysis has an empty
vulnerabilities list (on any input — here the empty repository and empty
documentation), contradicting the claim that it is never empty. -/
theorem c7_counterexample :
    vulnEntries (generateSecurityAnalysis emptyRepo emptyDocs).vulnerabilities = [] := rfl

/-- C7 (amended): the synthesized base security analysis never has an empty
strengths list (a fixed non-empty default is substituted), but its
vulnerabilities list is always empty — the source sets it to `[]` with the
comment that the LLM enhancement populates it. -/
theorem c7_strengths_default : ∀ (repoData : ProcessedRepository) (docsData : DocumentContent),
    (generateSecurityAnalysis repoData docsData).strengths ≠ [] ∧
    (generateSecurityAnalysis repoData docsData).vulnerabilities = VulnField.details [] :=
  fun repoData docsData => ⟨extractSecurityStrengths_ne_nil repoData docsData, rfl⟩

/-- C3: the merge of a base report with any enhancement input — including an
absent one — is total: the result is either the fully merged report (the
success of the try block) or exactly the unmodified base report, never a
partially-applied merge; in particular a `null` enhancement yields the base
report. -/
theorem c3_merge_total : ∀ (baseResult : AnalysisResult) (llmResult : Option LLMResult)
    (now : String),
    (llmResult = none → mergeAnalyses baseResult llmResult now = baseResult) ∧
    (mergeAnalyses baseResult llmResult now = baseResult ∨
      tryMergeAnalyses baseResult llmResult now =
        Except.ok (mergeAnalyses baseResult llmResult now)) := by
  intro b l now
  constructor
  · rintro rfl
    rfl
  · cases h : tryMergeAnalyses b l now with
    | ok r =>
      right
      simp only [mergeAnalyses, h]
    | error e =>
      left
      simp only [mergeAnalyses, h]

/-- C3 witness: the totality statement at a concrete base report and the
`null` enhancement. -/
theorem c3_witness :
    mergeAnalyses sampleBase none "t1" = sampleBase ∧
    (mergeAnalyses sampleBase none "t1" = sampleBase ∨
      tryMergeAnalyses sampleBase none "t1" = Except.ok (mergeAnalyses sampleBase none "t1")) :=
  ⟨(c3_merge_total sampleBase none "t1").1 rfl, (c3_merge_total sampleBase none "t1").2⟩

/-- The security merge keeps every base strength and recommendation. -/
theorem mergeSecurityAnalyses_superset (bs : SecurityAnalysis) (ls : Option LLMSecurity) :
    (∀ x ∈ bs.strengths, x ∈ (mergeSecurityAnalyses bs ls).strengths) ∧
    (∀ x ∈ bs.recommendations, x ∈ (mergeSecurityAnalyses bs ls).recommendations) := by
  cases ls with
  | none => exact ⟨fun x hx => hx, fun x hx => hx⟩
  | some lsec =>
    constructor
    · intro x hx
      show x ∈ dedupFirst (bs.strengths ++ (lsec.strengths.getD []))
      exact mem_dedupFirst_append_left _ hx
    · intro x hx
      show x ∈ dedupFirst (bs.recommendations ++ (lsec.recommendations.getD []))
      exact mem_dedupFirst_append_left _ hx

/-- C4 counterexample: an enhancement that supplies a non-empty structured
vulnerabilities list fully replaces the base findings, so the merged
vulnerabilities list is not a superset of the base list — the base entry is
removed. -/
theorem c4_counterexample :
    vulnEntries sampleBase.security.vulnerabilities = [Sum.inr sampleVuln0] ∧
    vulnEntries (mergeAnalyses sampleBase (some sampleEnhancement) "t3").security.vulnerabilities =
      [Sum.inr sampleVuln1] ∧
    (Sum.inr sampleVuln0 : String ⊕ VulnerabilityDetail) ∉
      ([Sum.inr sampleVuln1] : List (String ⊕ VulnerabilityDetail)) :=
  ⟨rfl, rfl, by simp [sampleVuln0, sampleVuln1]⟩

/-- C4 (amended): the merge is monotone on the list fields key features,
design patterns, gas optimizations, gas concerns, security strengths and
recommendations — each merged list is a superset (as a set) of the base list;
the vulnerabilities list is the exception: a non-empty enhancement
vulnerabilities list replaces the base findings wholesale. -/
theorem c4_merge_monotone_lists : ∀ (baseResult : AnalysisResult) (llmResult : Option LLMResult)
    (now : String),
    (∀ x ∈ baseResult.summary.keyFeatures,
      x ∈ (mergeAnalyses baseResult llmResult now).summary.keyFeatures) ∧
    (∀ x ∈ baseResult.architecture.designPatterns,
      x ∈ (mergeAnalyses baseResult llmResult now).architecture.designPatterns) ∧
    (∀ x ∈ baseResult.architecture.gasOptimization.optimizations,
      x ∈ (mergeAnalyses baseResult llmResult now).architecture.gasOptimization.optimizations) ∧
    (∀ x ∈ baseResult.architecture.gasOptimization.concerns,
      x ∈ (mergeAnalyses baseResult llmResult now).architecture.gasOptimization.concerns) ∧
    (∀ x ∈ baseResult.security.strengths,
      x ∈ (mergeAnalyses baseResult llmResult now).security.strengths) ∧
    (∀ x ∈ baseResult.security.recommendations,
      x ∈ (mergeAnalyses baseResult llmResult now).security.recommendations) := by
  intro b l now
  cases l with
  | none =>
    exact ⟨fun x hx => hx, fun x hx => hx, fun x hx => hx, fun x hx => hx,
      fun x hx => hx, fun x hx => hx⟩
  | some ll =>
    obtain ⟨s?, a?, sec?⟩ := ll
    cases s? with
    | none =>
      exact ⟨fun x hx => hx, fun x hx => hx, fun x hx => hx, fun x hx => hx,
        fun x hx => hx, fun x hx => hx⟩
    | some s =>
      cases a? with
      | none =>
        exact ⟨fun x hx => hx, fun x hx => hx, fun x hx => hx, fun x hx => hx,
          fun x hx => hx, fun x hx => hx⟩
      | some a =>
        refine ⟨?_, ?_, ?_, ?_, ?_, ?_⟩
        · intro x hx
          show x ∈ dedupFirst (b.summary.keyFeatures ++ (s.keyFeatures.getD []))
          exact mem_dedupFirst_append_left _ hx
        · intro x hx
          show x ∈ dedupFirst (b.architecture.designPatterns ++ (a.designPatterns.getD []))
          exact mem_dedupFirst_append_left _ hx
        · intro x hx
          show x ∈ dedupFirst (b.architecture.gasOptimization.optimizations ++
            optionalChainGas (some a) (fun g => g.optimizations))
          exact mem_dedupFirst_append_left _ hx
        · intro x hx
          show x ∈ dedupFirst (b.architecture.gasOptimization.concerns ++
            optionalChainGas (some a) (fun g => g.concerns))
          exact mem_dedupFirst_append_left _ hx
        · intro x hx
          exact (mergeSecurityAnalyses_superset b.security sec?).1 x hx
        · intro x hx
          exact (mergeSecurityAnalyses_superset b.security sec?).2 x hx

/-- C4 witness: each of the six monotone list fields at a concrete base
report whose lists are non-empty. -/
theorem c4_witness :
    "feat0" ∈ (mergeAnalyses sampleBase none "t2").summary.keyFeatures ∧
    "pat0" ∈ (mergeAnalyses sampleBase none "t2").architecture.designPatterns ∧
    "opt0" ∈ (mergeAnalyses sampleBase none "t2").architecture.gasOptimization.optimizations ∧
    "con0" ∈ (mergeAnalyses sampleBase none "t2").architecture.gasOptimization.concerns ∧
    "str0" ∈ (mergeAnalyses sampleBase none "t2").security.strengths ∧
    "rec0" ∈ (mergeAnalyses sampleBase none "t2").security.recommendations := by
  have h := c4_merge_monotone_lists sampleBase none "t2"
  exact ⟨h.1 _ (List.mem_singleton.mpr rfl), h.2.1 _ (List.mem_singleton.mpr rfl),
    h.2.2.1 _ (List.mem_singleton.mpr rfl), h.2.2.2.1 _ (List.mem_singleton.mpr rfl),
    h.2.2.2.2.1 _ (List.mem_singleton.mpr rfl), h.2.2.2.2.2 _ (List.mem_singleton.mpr rfl)⟩

/-- C5: the security rating is always one of the fixed letter grades A+ … F
(the score-to-grade table is total over the rationals), and the rating is
monotone non-increasing as the average complexity increases while the
detected access-control, reentrancy-guard and pausable features are held
fixed. -/
theorem c5_rating_total_and_monotone :
    (∀ contracts : List ContractAnalysis, calculateSecurityRating contracts ∈ gradeSet) ∧
    (∀ l1 l2 : List ContractAnalysis,
      hasAccessControlIn l1 = hasAccessControlIn l2 →
      hasReentrancyGuardIn l1 = hasReentrancyGuardIn l2 →
      hasPausableIn l1 = hasPausableIn l2 →
      l1 ≠ [] → l2 ≠ [] →
      avgComplexityOf l1 ≤ avgComplexityOf l2 →
      gradeValue (calculateSecurityRating l2) ≤ gradeValue (calculateSecurityRating l1)) := by
  constructor
  · intro contracts
    exact gradeOf_mem _
  · intro l1 l2 h1 h2 h3 hn1 hn2 havg
    have hlen1 : ¬l1.length = 0 := by simpa using hn1
    have hlen2 : ¬l2.length = 0 := by simpa using hn2
    have hpen : complexityPenalty l1 ≤ complexityPenalty l2 :=
      complexityPenalty_mono hlen1 hlen2 havg
    unfold calculateSecurityRating securityScore
    rw [h1, h2, h3]
    rcases complexityPenalty_cases l1 with hp1 | hp1 | hp1 <;>
      rcases complexityPenalty_cases l2 with hp2 | hp2 | hp2 <;>
      rw [hp1, hp2] at hpen ⊢ <;>
      first
        | (exfalso; linarith)
        | (cases hasAccessControlIn l2 <;> cases hasReentrancyGuardIn l2 <;>
            cases hasPausableIn l2 <;> norm_num [gradeOf, gradeValue])

/-- C5 witness: the totality and monotonicity statement at two concrete
one-contract lists with equal feature flags and average complexities 2 ≤ 9. -/
theorem c5_witness :
    calculateSecurityRating [lowContract] ∈ gradeSet ∧
    gradeValue (calculateSecurityRating [highContract]) ≤
      gradeValue (calculateSecurityRating [lowContract]) :=
  ⟨c5_rating_total_and_monotone.1 [lowContract],
   c5_rating_total_and_monotone.2 [lowContract] [highContract] rfl rfl rfl
     (by simp) (by simp)
     (by norm_num [avgComplexityOf, lowContract, highContract])⟩

/-- The per-file complexity score is never negative. -/
theorem calculateComplexity_nonneg (content : String) : 0 ≤ calculateComplexity content := by
  simp only [calculateComplexity]
  apply le_min
  · positivity
  · norm_num

/-- The per-file complexity score never exceeds 10. -/
theorem calculateComplexity_le_ten (content : String) : calculateComplexity content ≤ 10 := by
  simp only [calculateComplexity]
  exact min_le_right _ _

/-- The rounded average of the contract complexities stays within the bounds
of its entries. -/
theorem calculateAverageComplexity_bounds (repoData : ProcessedRepository)
    (h : ∀ c ∈ repoData.contractAnalysis, 0 ≤ c.complexity ∧ c.complexity ≤ 10) :
    0 ≤ calculateAverageComplexity repoData ∧ calculateAverageComplexity repoData ≤ 10 := by
  rw [calculateAverageComplexity]
  split_ifs with hlen
  · norm_num
  · set L := repoData.contractAnalysis with hL
    have hn : 0 < (L.length : ℚ) := by
      exact_mod_cast Nat.pos_of_ne_zero hlen
    have hsum0 : 0 ≤ (L.map (fun c => c.complexity)).sum := by
      apply List.sum_nonneg
      intro x hx
      obtain ⟨c, hc, rfl⟩ := List.mem_map.mp hx
      exact (h c hc).1
    have hsum10 : (L.map (fun c => c.complexity)).sum ≤ (L.length : ℚ) * 10 := by
      have h2 := List.sum_le_card_nsmul (L.map fun c => c.complexity) 10 (by
        intro x hx
        obtain ⟨c, hc, rfl⟩ := List.mem_map.mp hx
        exact (h c hc).2)
      simpa [nsmul_eq_mul] using h2
    have havg0 : 0 ≤ (L.map (fun c => c.complexity)).sum / (L.length : ℚ) :=
      div_nonneg hsum0 (le_of_lt hn)
    have havg10 : (L.map (fun c => c.complexity)).sum / (L.length : ℚ) ≤ 10 := by
      rw [div_le_iff₀ hn]
      linarith
    set q := (L.map (fun c => c.complexity)).sum / (L.length : ℚ) with hq
    have hr0 : (0 : ℤ) ≤ round (q * 10) := by
      rw [round_eq]
      apply Int.floor_nonneg.mpr
      nlinarith
    have hr100 : round (q * 10) ≤ (100 : ℤ) := by
      rw [round_eq]
      have hle : q * 10 + 1 / 2 ≤ (100 : ℚ) + 1 / 2 := by nlinarith
      calc ⌊q * 10 + 1 / 2⌋ ≤ ⌊(100 : ℚ) + 1 / 2⌋ := Int.floor_mono hle
        _ = 100 := by
          rw [Int.floor_eq_iff]
          constructor <;> norm_num
    constructor
    · apply div_nonneg _ (by norm_num : (0 : ℚ) ≤ 10)
      exact_mod_cast hr0
    · rw [div_le_iff₀ (by norm_num : (0 : ℚ) < 10)]
      calc ((round (q * 10) : ℤ) : ℚ) ≤ ((100 : ℤ) : ℚ) := by exact_mod_cast hr100
        _ = 10 * 10 := by norm_num

/-- C6: every per-contract complexity score lies in [0,10]; the synthesized
summary complexity score (the rounded average) lies in [0,10] whenever the
per-contract scores do — which they always do, since the parser fills the
field with `calculateComplexity` — and an empty contract list gives the
neutral default 5 instead of a division by zero. -/
theorem c6_complexity_bounds :
    (∀ content : String, 0 ≤ calculateComplexity content ∧ calculateComplexity content ≤ 10) ∧
    (∀ (file : GitHubFile) (a : ContractAnalysis), parseSolidityContract file = some a →
      0 ≤ a.complexity ∧ a.complexity ≤ 10) ∧
    (∀ repoData : ProcessedRepository,
      (∀ c ∈ repoData.contractAnalysis, 0 ≤ c.complexity ∧ c.complexity ≤ 10) →
      0 ≤ calculateAverageComplexity repoData ∧ calculateAverageComplexity repoData ≤ 10) ∧
    (∀ repoData : ProcessedRepository, repoData.contractAnalysis = [] →
      calculateAverageComplexity repoData = 5) := by
  refine ⟨?_, ?_, ?_, ?_⟩
  · intro content
    exact ⟨calculateComplexity_nonneg content, calculateComplexity_le_ten content⟩
  · intro file a h
    simp only [parseSolidityContract] at h
    cases hname : findContractName file.content with
    | none => rw [hname] at h; cases h
    | some nm =>
      rw [hname] at h
      injection h with h2
      subst h2
      exact ⟨calculateComplexity_nonneg _, calculateComplexity_le_ten _⟩
  · intro repoData h
    exact calculateAverageComplexity_bounds repoData h
  · intro repoData h
    simp [calculateAverageComplexity, h]

/-- C6 witness: the bounds at a concrete parsed file and a concrete
repository, and the neutral default at the empty repository. -/
theorem c6_witness :
    (0 ≤ calculateComplexity "" ∧ calculateComplexity "" ≤ 10) ∧
    (0 ≤ vaultParsed.complexity ∧ vaultParsed.complexity ≤ 10) ∧
    (0 ≤ calculateAverageComplexity lowRepo ∧ calculateAverageComplexity lowRepo ≤ 10) ∧
    calculateAverageComplexity emptyRepo = 5 :=
  ⟨c6_complexity_bounds.1 "",
   c6_complexity_bounds.2.1 vaultFile vaultParsed rfl,
   c6_complexity_bounds.2.2.1 lowRepo (by
     intro c hc
     have hc2 : c = lowContract := by simpa [lowRepo] using hc
     subst hc2
     constructor <;> norm_num [lowContract]),
   c6_complexity_bounds.2.2.2 emptyRepo rfl⟩

end CodeCraft


